import Mathlib

/-!
# Verification development for the MarketTick automated-collection core

Shallow embedding of the collection subsystem of the MarketTick repository:

* `getMarketHours` — the trading-calendar function of
  `client/src/components/AutoDataCollector` (market kind and instant to
  session state);
* `storeAppend` / `getStoredDataCount` / `clearStoredData` — the bounded
  per-symbol store of `client/src/utils/dataExport.ts` (`storeDataLocally`);
* `exportStoredData` / `exportStoredDataChunked` — the export path of
  `client/src/utils/dataExport.ts`;
* `startCollection` / `stopCollection` / `autoTick` / `collectData`'s
  statistics updates — the scheduler state of `AutoDataCollector`.

Instants are modelled as natural numbers of milliseconds since the Unix
epoch.  The component reads JavaScript `Date` accessors (`getDay`,
`getHours`, `getMinutes`, `setHours`, `setDate`) on `new Date(now + 8h)`;
those accessors use the host environment's local timezone, and the
embedding fixes that timezone at UTC (no offset, no DST), which is the
configuration under which the `+ 8h` shift yields Hong Kong local
components as the code intends.  The Unix epoch fell on a Thursday, hence
the `+ 4` in `dayOfWeek`.
-/

namespace MarketTick

/-- Milliseconds in a day. -/
def msPerDay : Nat := 86400000

/-- Milliseconds in an hour. -/
def msPerHour : Nat := 3600000

/-- Milliseconds in a minute. -/
def msPerMinute : Nat := 60000

/-- The 8-hour shift the code adds to convert the current instant to Hong
Kong time (`now.getTime() + 8 * 60 * 60 * 1000`). -/
def hkOffset : Nat := 8 * 60 * 60 * 1000

/-- Calendar-day index of an instant (UTC midnight granularity). -/
def dayIndex (d : Nat) : Nat := d / msPerDay

/-- `Date.getDay()`: 0 = Sunday … 6 = Saturday.  Day 0 of the epoch was a
Thursday (= 4). -/
def dayOfWeek (d : Nat) : Nat := (dayIndex d + 4) % 7

/-- `Date.getHours()` in the fixed (UTC) host timezone. -/
def hoursOf (d : Nat) : Nat := d % msPerDay / msPerHour

/-- `Date.getMinutes()`. -/
def minutesOf (d : Nat) : Nat := d % msPerHour / msPerMinute

/-- The `timeInMinutes = hour * 60 + minute` computation of
`getMarketHours`. -/
def timeInMinutesOf (d : Nat) : Nat := hoursOf d * 60 + minutesOf d

/-- `setHours(h, m, 0, 0)` on a date: keep the calendar day, set the
time-of-day to `h:m:00.000`. -/
def setHM (d h m : Nat) : Nat := dayIndex d * msPerDay + h * msPerHour + m * msPerMinute

/-- `setDate(getDate() + k)`: advance `k` whole calendar days (exact in a
timezone without DST). -/
def addDays (d k : Nat) : Nat := d + k * msPerDay

/-- The `sessionType` union of the component
(`'morning' | 'afternoon' | 'closed'`), extended by the spec's
`AlwaysOpen` kind, which the code's union type does not contain, so that
the spec's claim about crypto markets can be stated. -/
inductive SessionType where
  | morning
  | afternoon
  | closed
  | alwaysOpen
deriving DecidableEq, Repr

/-- The `MarketHours` interface of `AutoDataCollector`. -/
structure MarketHours where
  isOpen : Bool
  nextOpen : Option Nat
  nextClose : Option Nat
  sessionType : SessionType
deriving DecidableEq, Repr

/-- The stock-market branch of `getMarketHours` (Hong Kong sessions).
Mirrors the source line by line: weekend check, morning window
`[9:30, 12:00)`, afternoon window `[13:00, 16:00)`, and the three closed
cases (before morning, lunch gap, after close).  All `Date` values the
code builds in the HK frame are converted back by subtracting the 8-hour
offset, exactly as the source does. -/
def getMarketHoursStock (t : Nat) : MarketHours :=
  let hkTime := t + hkOffset
  let day := dayOfWeek hkTime
  let timeInMinutes := timeInMinutesOf hkTime
  if day = 0 ∨ day = 6 then
    -- Stock market closed on weekends
    let nextMonday := setHM (addDays hkTime ((1 + (7 - day)) % 7)) 9 30
    { isOpen := false
      nextOpen := some (nextMonday - hkOffset)
      nextClose := none
      sessionType := .closed }
  else
    let morningStart := 9 * 60 + 30
    let morningEnd := 12 * 60
    let afternoonStart := 13 * 60
    let afternoonEnd := 16 * 60
    if morningStart ≤ timeInMinutes ∧ timeInMinutes < morningEnd then
      { isOpen := true
        nextOpen := none
        nextClose := some (setHM hkTime 12 0 - hkOffset)
        sessionType := .morning }
    else if afternoonStart ≤ timeInMinutes ∧ timeInMinutes < afternoonEnd then
      { isOpen := true
        nextOpen := none
        nextClose := some (setHM hkTime 16 0 - hkOffset)
        sessionType := .afternoon }
    else if timeInMinutes < morningStart then
      -- Before morning session
      { isOpen := false
        nextOpen := some (setHM hkTime 9 30 - hkOffset)
        nextClose := none
        sessionType := .closed }
    else if morningEnd ≤ timeInMinutes ∧ timeInMinutes < afternoonStart then
      -- Lunch break
      { isOpen := false
        nextOpen := some (setHM hkTime 13 0 - hkOffset)
        nextClose := none
        sessionType := .closed }
    else
      -- After market close, next opening is tomorrow morning
      { isOpen := false
        nextOpen := some (setHM (addDays hkTime 1) 9 30 - hkOffset)
        nextClose := none
        sessionType := .closed }

/-- `getMarketHours` of `AutoDataCollector`: crypto markets are reported
open 24/7 with `sessionType: 'morning'` ("Use 'morning' as default for
crypto" in the source); every other market kind takes the stock branch. -/
def getMarketHours (selectedMarket : String) (t : Nat) : MarketHours :=
  if selectedMarket = "crypto" then
    { isOpen := true
      nextOpen := none
      nextClose := none
      sessionType := .morning }
  else
    getMarketHoursStock t

/-! ## Bounded per-symbol store (`storeDataLocally` and friends) -/

/-- The hard per-symbol capacity of the local store: "Keep only last
10000 entries per symbol (maximum storage capacity)". -/
def capacity : Nat := 10000

/-- One `storeDataLocally` insertion into a symbol's ledger: push the new
entry at the tail, then `splice(0, length - 10000)` when the length
exceeds the capacity, i.e. drop the oldest entries down to 10000.
Records are opaque to the store, hence the type parameter. -/
def storeAppend {α : Type} (ledger : List α) (r : α) : List α :=
  let pushed := ledger ++ [r]
  if pushed.length > capacity then pushed.drop (pushed.length - capacity) else pushed

/-- `getStoredDataCount`: length of the stored list for the symbol. -/
def getStoredDataCount {α : Type} (ledger : List α) : Nat := ledger.length

/-- `clearStoredData`: `localStorage.removeItem` on the symbol's key, so a
subsequent read parses `'[]'`. -/
def clearStoredData {α : Type} (_ledger : List α) : List α := []

/-! ## Export path (`exportStoredData`, `exportStoredDataChunked`) -/

/-- Outcome of an export request, abstracting the DOM download side
effects: `noData` is the early `return false` on an empty store,
`single` is one artifact triggered for download (`compact` records
whether the > 50 MB branch chose un-pretty-printed JSON), `chunked` is
the multi-file fallback (one length per emitted chunk), and `failure` is
`return false` from the catch block with no artifact written. -/
inductive ExportOutcome where
  | noData
  | single (recordCount : Nat) (compact : Bool)
  | chunked (chunkSizes : List Nat)
  | failure
deriving DecidableEq, Repr

/-- Number of artifacts a given outcome hands to the download sink. -/
def artifactsWritten : ExportOutcome → Nat
  | .single _ _ => 1
  | .chunked cs => cs.length
  | _ => 0

/-- The message of the error thrown when the created blob is empty:
`throw new Error('Failed to create data blob - file would be empty')`. -/
def blobEmptyMsg : String := "Failed to create data blob - file would be empty"

/-- Does `needle` stand at the head of `l`? -/
def charListLeads : List Char → List Char → Bool
  | [], _ => true
  | _ :: _, [] => false
  | a :: as, b :: bs => a = b && charListLeads as bs

/-- Does `needle` occur contiguously anywhere in `l`? -/
def charListHasSub (needle : List Char) : List Char → Bool
  | [] => charListLeads needle []
  | c :: cs => charListLeads needle (c :: cs) || charListHasSub needle cs

/-- JavaScript `String.prototype.includes`: contiguous-substring test on
the underlying character sequences. -/
def containsSub (s needle : String) : Bool := charListHasSub needle.toList s.toList

/-- The catch-block test
`error.message?.includes('memory') || error.message?.includes('size')`
that gates the chunked-export fallback. -/
def isMemoryOrSizeError (msg : String) : Bool :=
  containsSub msg "memory" || containsSub msg "size"

/-- The 50 MB threshold `50 * 1024 * 1024` of `exportStoredData`. -/
def sizeBudget : Nat := 50 * 1024 * 1024

/-- `const chunkSize = 1000` of `exportStoredDataChunked`. -/
def chunkSize : Nat := 1000

/-- The chunking loop
`for (let i = 0; i < storedData.length; i += chunkSize) chunks.push(storedData.slice(i, i + chunkSize))`. -/
def chunksOf {α : Type} (n : Nat) (l : List α) : List (List α) :=
  if _hn : n = 0 then []
  else if _hl : l.length = 0 then []
  else l.take n :: chunksOf n (l.drop n)
termination_by l.length
decreasing_by simp [List.length_drop]; omega

/-- `exportStoredDataChunked`: empty store returns `false`; otherwise
every 1000-record slice becomes one artifact. -/
def exportStoredDataChunked {α : Type} (storedData : List α) : ExportOutcome :=
  if storedData.length = 0 then .noData
  else .chunked ((chunksOf chunkSize storedData).map List.length)

/-- `exportStoredData` (called with the default `format = 'json'`).

`dataSize` is the byte size the browser reports for
`new Blob([JSON.stringify(storedData)])`, and `blobOf` gives the byte
size of the `Blob` created from the final `jsonContent` string — both
are behaviour of the external `Blob` collaborator, so the embedding
takes them as inputs rather than re-implementing `JSON.stringify`.

Control flow of the source: empty store returns `false`; the JSON is
compact iff `dataSize > 50 MB` (else pretty-printed), but either way a
*single* file is prepared; if the created blob is empty the code throws,
and the catch block falls back to `exportStoredDataChunked` only when
the error message contains `'memory'` or `'size'`, returning `false`
otherwise. -/
def exportStoredData {α : Type} (storedData : List α) (dataSize : Nat)
    (blobSize : Nat) : ExportOutcome :=
  if storedData.length = 0 then .noData
  else
    let compact := dataSize > sizeBudget
    if blobSize = 0 then
      -- throw lands in the catch block before any DOM write happened
      if isMemoryOrSizeError blobEmptyMsg then exportStoredDataChunked storedData
      else .failure
    else .single storedData.length compact

/-! ## Scheduler state (`AutoDataCollector`) -/

/-- The `CollectionStats` React state of `AutoDataCollector`.
`lastCollectionTime` is an instant in milliseconds (or `none`). -/
structure CollectionStats where
  totalCollections : Nat
  successfulCollections : Nat
  failedCollections : Nat
  lastCollectionTime : Option Nat
  collectionErrors : List String
deriving DecidableEq, Repr

/-- The initial `useState` value for `collectionStats`, which is also
exactly what `resetStats` writes back. -/
def initialStats : CollectionStats :=
  { totalCollections := 0
    successfulCollections := 0
    failedCollections := 0
    lastCollectionTime := none
    collectionErrors := [] }

/-- `resetStats` of `AutoDataCollector`: overwrite all statistics with
the zero state. -/
def resetStats (_s : CollectionStats) : CollectionStats := initialStats

/-- JavaScript `arr.slice(-n)`: the last `min n (length)` elements. -/
def lastSlice {α : Type} (n : Nat) (l : List α) : List α := l.drop (l.length - n)

/-- How one *completed* `collectData` attempt resolved: the download
succeeded and the record was stored, the fetch succeeded but local
storage failed, or the fetch itself threw (including the
`'No data received from API'` throw). -/
inductive FetchOutcome where
  | stored (filename : String)
  | storageFailed (filename : String)
  | fetchError (msg : String)
deriving DecidableEq, Repr

/-- The `setCollectionStats` update a completed `collectData` attempt
performs, one case per branch of the source: success bumps
`totalCollections` and `successfulCollections`, records the time and
trims the error list to its last 4 entries; either failure branch bumps
`totalCollections` and `failedCollections` and appends its message to
the last 4 previous errors. -/
def applyOutcome (now : Nat) (o : FetchOutcome) (s : CollectionStats) : CollectionStats :=
  match o with
  | .stored _fn =>
      { totalCollections := s.totalCollections + 1
        successfulCollections := s.successfulCollections + 1
        failedCollections := s.failedCollections
        lastCollectionTime := some now
        collectionErrors := lastSlice 4 s.collectionErrors }
  | .storageFailed fn =>
      { totalCollections := s.totalCollections + 1
        successfulCollections := s.successfulCollections
        failedCollections := s.failedCollections + 1
        lastCollectionTime := s.lastCollectionTime
        collectionErrors := lastSlice 4 s.collectionErrors ++ ["Storage failed: " ++ fn] }
  | .fetchError msg =>
      { totalCollections := s.totalCollections + 1
        successfulCollections := s.successfulCollections
        failedCollections := s.failedCollections + 1
        lastCollectionTime := s.lastCollectionTime
        collectionErrors := lastSlice 4 s.collectionErrors ++ [msg] }

/-- The timer-related state of `AutoDataCollector`: the `isCollecting`
flag, the `intervalRef` ref cell, and — bookkeeping the embedding adds
to observe `setInterval`/`clearInterval` — the identities of cadence
timers that have been armed and not (yet) cleared, plus a counter
handing out fresh timer ids. -/
structure CollectorState where
  isCollecting : Bool
  intervalRef : Option Nat
  liveTimers : List Nat
  nextTimerId : Nat
deriving DecidableEq, Repr

/-- Component state on mount: not collecting, `intervalRef.current = null`,
no timer armed. -/
def initialCollector : CollectorState :=
  { isCollecting := false
    intervalRef := none
    liveTimers := []
    nextTimerId := 0 }

/-- `startCollection`: bail out (alert) when no symbol is selected;
otherwise set `isCollecting`, trigger an immediate `collectData`, and
arm a fresh 60-second `setInterval`, storing its id in `intervalRef` —
overwriting whatever id was there, with no check of the current state. -/
def startCollection (selectedSymbol : String) (s : CollectorState) : CollectorState :=
  if selectedSymbol = "" then s
  else
    { isCollecting := true
      intervalRef := some s.nextTimerId
      liveTimers := s.liveTimers ++ [s.nextTimerId]
      nextTimerId := s.nextTimerId + 1 }

/-- `stopCollection`: clear `isCollecting`; if `intervalRef.current` is
set, `clearInterval` it (the timer with that id stops being live) and
null the ref.  Timers whose id is no longer in the ref are untouched. -/
def stopCollection (s : CollectorState) : CollectorState :=
  { isCollecting := false
    intervalRef := none
    liveTimers :=
      match s.intervalRef with
      | some i => s.liveTimers.filter (fun j => j ≠ i)
      | none => s.liveTimers
    nextTimerId := s.nextTimerId }

/-- `k` consecutive `startCollection` calls from the mounted state, with
no intervening `stopCollection`. -/
def startN (selectedSymbol : String) : Nat → CollectorState
  | 0 => initialCollector
  | k + 1 => startCollection selectedSymbol (startN selectedSymbol k)

/-- One run of the auto-start effect of `AutoDataCollector`
(`useEffect` on `[marketHours.isOpen, autoStartEnabled, selectedSymbol, isCollecting, ...]`):
do nothing unless auto mode is on; start when the market is open, the
scheduler is idle and a symbol is selected; stop when the market is
closed and the scheduler is collecting. -/
def autoTick (autoStartEnabled : Bool) (isOpen : Bool) (selectedSymbol : String)
    (s : CollectorState) : CollectorState :=
  if autoStartEnabled = false then s
  else if isOpen = true ∧ s.isCollecting = false ∧ selectedSymbol ≠ "" then
    startCollection selectedSymbol s
  else if isOpen = false ∧ s.isCollecting = true then
    stopCollection s
  else s

/-! ## Interleaving of cadence ticks and in-flight attempts

`collectData` is `async`: a cadence tick starts it, it suspends on the
awaited fetch, and its statistics update runs only when the response
resolves.  The event model below has one event for a tick firing and one
for an in-flight attempt resolving; `collectData` itself guards only on
the selected symbol, so a tick arriving while `inFlight > 0` starts a
second concurrent attempt. -/

/-- Scheduler events: a cadence tick firing, or an in-flight
`collectData` attempt resolving with the given outcome. -/
inductive Ev where
  | tick
  | complete (o : FetchOutcome)
deriving DecidableEq, Repr

/-- Run statistics together with the number of `collectData` attempts
currently suspended on their awaited fetch. -/
structure SchedulerRun where
  stats : CollectionStats
  inFlight : Nat
deriving DecidableEq, Repr

/-- Event step.  A tick enters `collectData`, which returns early only
when no symbol is selected — there is no busy flag, so the attempt
starts regardless of `inFlight`.  A completion applies the statistics
update of its branch. -/
def runStep (selectedSymbol : String) (now : Nat) (s : SchedulerRun) (e : Ev) : SchedulerRun :=
  match e with
  | .tick =>
      if selectedSymbol = "" then s
      else { s with inFlight := s.inFlight + 1 }
  | .complete o =>
      if s.inFlight = 0 then s
      else { stats := applyOutcome now o s.stats, inFlight := s.inFlight - 1 }

/-! ## Helper lemmas -/

/-- The string `"stock"` is not `"crypto"`, so an equity market takes the
calendar-bound branch of `getMarketHours`. -/
theorem getMarketHours_stock_eq (t : Nat) : getMarketHours "stock" t = getMarketHoursStock t := by
  simp [getMarketHours]

/-- Folding `storeAppend` from the empty ledger retains exactly the most
recent `capacity` insertions, in insertion order. -/
theorem storeAppend_foldl {α : Type} (rs : List α) :
    rs.foldl storeAppend [] = rs.drop (rs.length - capacity) := by
  have hcap : (1 : Nat) ≤ capacity := by norm_num [capacity]
  induction rs using List.reverseRecOn with
  | nil => simp
  | append_singleton l a ih =>
      rw [List.foldl_append, List.foldl_cons, List.foldl_nil, ih]
      by_cases h : l.length < capacity
      · have h0 : l.length - capacity = 0 := by omega
        have h1 : (l ++ [a]).length - capacity = 0 := by
          simp only [List.length_append, List.length_singleton]; omega
        rw [h0, List.drop_zero, h1, List.drop_zero]
        unfold storeAppend
        simp only [gt_iff_lt]
        rw [if_neg (by simp only [List.length_append, List.length_singleton]; omega :
          ¬ capacity < (l ++ [a]).length)]
      · push_neg at h
        have hdlen : (l.drop (l.length - capacity)).length = capacity := by
          rw [List.length_drop]; omega
        unfold storeAppend
        simp only [gt_iff_lt]
        have hplen : (l.drop (l.length - capacity) ++ [a]).length = capacity + 1 := by
          simp only [List.length_append, List.length_singleton, hdlen]
        rw [if_pos (by rw [hplen]; omega), hplen]
        have hcap1 : capacity + 1 - capacity = 1 := by omega
        rw [hcap1,
          List.drop_append_of_le_length (by rw [hdlen]; omega),
          List.drop_drop,
          List.drop_append_of_le_length
            (by simp only [List.length_append, List.length_singleton]; omega)]
        have heq : l.length - capacity + 1 = (l ++ [a]).length - capacity := by
          simp only [List.length_append, List.length_singleton]; omega
        rw [heq]

/-- Shape of the collector state after `k` consecutive `startCollection`
calls with a nonempty symbol: `k` armed timers with ids `0 … k-1`, the
ref holding the most recent id. -/
theorem startN_spec (sym : String) (hsym : sym ≠ "") (k : Nat) :
    (startN sym k).liveTimers = List.range k ∧
    (startN sym k).intervalRef = (if k = 0 then none else some (k - 1)) ∧
    (startN sym k).nextTimerId = k := by
  induction k with
  | zero => exact ⟨rfl, rfl, rfl⟩
  | succ k ih =>
      obtain ⟨hl, hr, hn⟩ := ih
      unfold startN startCollection
      rw [if_neg hsym]
      exact ⟨by simp [hl, hn, List.range_succ], by simp [hn], by simp [hn]⟩

/-- The consistency invariant of the run statistics. -/
def statsConsistent (s : CollectionStats) : Prop :=
  s.totalCollections = s.successfulCollections + s.failedCollections

/-! ## Claims -/

/-- Claim C1, counterexample.  The claim says that after the afternoon
close `nextOpen` rolls forward to the next weekday, so a Friday-after-close
instant gets Monday 09:30.  At the instant 118800000 ms (a Friday, HK time
17:00) the code instead returns a `nextOpen` that falls on a Saturday
(`dayOfWeek` 6) at 09:30 — no weekend rolling happens. -/
theorem c1_friday_after_close_counterexample :
    dayOfWeek (118800000 + hkOffset) = 5 ∧
    16 * 60 ≤ timeInMinutesOf (118800000 + hkOffset) ∧
    (getMarketHours "stock" 118800000).nextOpen = some 178200000 ∧
    dayOfWeek (178200000 + hkOffset) = 6 ∧
    timeInMinutesOf (178200000 + hkOffset) = 9 * 60 + 30 := by decide

/-- Claim C1, amended.  For an equity market, every weekday instant after
the afternoon close yields a closed session whose `nextOpen` is the next
*calendar* day at 09:30 exchange-local time — with no rolling to the next
weekday when that day is a Saturday or Sunday. -/
theorem c1_after_close_next_open_amended (t : Nat)
    (hwd1 : 1 ≤ dayOfWeek (t + hkOffset)) (hwd2 : dayOfWeek (t + hkOffset) ≤ 5)
    (hc : 16 * 60 ≤ timeInMinutesOf (t + hkOffset)) :
    getMarketHours "stock" t =
      { isOpen := false
        nextOpen := some (setHM (addDays (t + hkOffset) 1) 9 30 - hkOffset)
        nextClose := none
        sessionType := .closed } ∧
    dayIndex (setHM (addDays (t + hkOffset) 1) 9 30) = dayIndex (t + hkOffset) + 1 ∧
    timeInMinutesOf (setHM (addDays (t + hkOffset) 1) 9 30) = 9 * 60 + 30 := by
  have hd : ¬(dayOfWeek (t + hkOffset) = 0 ∨ dayOfWeek (t + hkOffset) = 6) := by omega
  refine ⟨?_, ?_, ?_⟩
  · rw [getMarketHours_stock_eq]
    simp only [getMarketHoursStock]
    rw [if_neg hd]
    split_ifs with h1 h2 h3 h4
    · omega
    · omega
    · omega
    · omega
    · rfl
  · simp only [setHM, addDays, dayIndex, msPerDay, msPerHour, msPerMinute]
    omega
  · simp only [timeInMinutesOf, hoursOf, minutesOf, setHM, addDays, dayIndex,
      msPerDay, msPerHour, msPerMinute]
    omega

/-- Claim C1 witness: the amended statement at the concrete Friday
17:00 HKT instant. -/
theorem c1_after_close_next_open_amended_witness :
    1 ≤ dayOfWeek (118800000 + hkOffset) ∧ dayOfWeek (118800000 + hkOffset) ≤ 5 ∧
    16 * 60 ≤ timeInMinutesOf (118800000 + hkOffset) ∧
    (getMarketHours "stock" 118800000 =
      { isOpen := false
        nextOpen := some (setHM (addDays (118800000 + hkOffset) 1) 9 30 - hkOffset)
        nextClose := none
        sessionType := .closed } ∧
     dayIndex (setHM (addDays (118800000 + hkOffset) 1) 9 30)
        = dayIndex (118800000 + hkOffset) + 1 ∧
     timeInMinutesOf (setHM (addDays (118800000 + hkOffset) 1) 9 30) = 9 * 60 + 30) :=
  ⟨by decide, by decide, by decide,
   c1_after_close_next_open_amended 118800000 (by decide) (by decide) (by decide)⟩

/-- Claim C2, counterexample.  The claim says a record set whose estimated
serialized size exceeds the 50 MB budget is exported as a Chunked plan
with 1000-record chunks.  The code instead prepares a *single* artifact
(merely switching to compact JSON): on a 2-record set whose reported size
is one byte over the budget, the outcome is `single`, not `chunked`. -/
theorem c2_over_budget_counterexample :
    sizeBudget < sizeBudget + 1 ∧
    exportStoredData [(0 : Nat), 1] (sizeBudget + 1) (sizeBudget + 1)
      = ExportOutcome.single 2 true := by decide

/-- Claim C2, amended.  Whenever the estimated serialized size exceeds the
50 MB budget (and the blob creation succeeds), `exportStoredData` returns
a single artifact serialized compactly; the chunked path (1000-record
chunks) is reached only through the catch-block fallback for errors whose
message mentions memory or size. -/
theorem c2_over_budget_single_amended {α : Type} (storedData : List α)
    (dataSize blobSize : Nat) (hne : storedData.length ≠ 0) (hblob : blobSize ≠ 0)
    (hbig : sizeBudget < dataSize) :
    exportStoredData storedData dataSize blobSize
      = ExportOutcome.single storedData.length true := by
  unfold exportStoredData
  rw [if_neg hne]
  simp only [if_neg hblob]
  have hdec : decide (dataSize > sizeBudget) = true := by simp [hbig]
  simp [hdec]

/-- Claim C2 witness: the amended statement at a concrete 2-record set one
byte over budget. -/
theorem c2_over_budget_single_amended_witness :
    ([(0 : Nat), 1] : List Nat).length ≠ 0 ∧ sizeBudget + 1 ≠ 0 ∧
    sizeBudget < sizeBudget + 1 ∧
    exportStoredData [(0 : Nat), 1] (sizeBudget + 1) (sizeBudget + 1)
      = ExportOutcome.single ([(0 : Nat), 1] : List Nat).length true :=
  ⟨by decide, by decide, by decide,
   c2_over_budget_single_amended [(0 : Nat), 1] (sizeBudget + 1) (sizeBudget + 1)
     (by decide) (by decide) (by decide)⟩

/-- Claim C3, counterexample.  The claim says a second `start()` without
an intervening `stop()` does not arm a second cadence timer and that
`start()` takes effect only from Idle.  In the code `startCollection`
checks only that a symbol is selected: called twice, it arms two interval
timers (both live, firing one collection attempt each per interval) and
overwrites the ref with the second id, so even `stopCollection` clears
only one of them. -/
theorem c3_double_start_counterexample :
    (startCollection "700.HK" (startCollection "700.HK" initialCollector)).liveTimers.length
      = 2 ∧
    (startCollection "700.HK" (startCollection "700.HK" initialCollector)).isCollecting
      = true ∧
    (stopCollection (startCollection "700.HK"
      (startCollection "700.HK" initialCollector))).liveTimers.length = 1 := by decide

/-- Claim C3, amended.  `startCollection` guards only on an empty symbol,
not on the Running state: after `k` consecutive `startCollection` calls
with a nonempty symbol, `k` cadence timers are live (each firing one
collection attempt per interval), and a `stopCollection` clears only the
most recently armed one, leaving `k - 1` still live. -/
theorem c3_double_start_arms_amended (k : Nat) (sym : String) (hsym : sym ≠ "") :
    (startN sym k).liveTimers.length = k ∧
    (0 < k → (stopCollection (startN sym k)).liveTimers.length = k - 1) := by
  refine ⟨?_, ?_⟩
  · rw [(startN_spec sym hsym k).1, List.length_range]
  · intro hk
    obtain ⟨m, rfl⟩ : ∃ m, k = m + 1 := ⟨k - 1, by omega⟩
    obtain ⟨hl, hr, hn⟩ := startN_spec sym hsym (m + 1)
    unfold stopCollection
    rw [hr, if_neg (by omega : ¬ m + 1 = 0)]
    simp only [hl, Nat.add_sub_cancel]
    rw [List.range_succ, List.filter_append]
    have h1 : (List.range m).filter (fun j => decide (j ≠ m)) = List.range m := by
      apply List.filter_eq_self.mpr
      intro a ha
      simp only [List.mem_range] at ha
      simp only [decide_eq_true_eq]
      omega
    have h2 : [m].filter (fun j => decide (j ≠ m)) = [] := by simp
    rw [h1, h2, List.append_nil, List.length_range]

/-- Claim C3 witness: the amended statement at two consecutive starts. -/
theorem c3_double_start_arms_amended_witness :
    ("700.HK" : String) ≠ "" ∧
    ((startN "700.HK" 2).liveTimers.length = 2 ∧
      (0 < 2 → (stopCollection (startN "700.HK" 2)).liveTimers.length = 2 - 1)) :=
  ⟨by decide, c3_double_start_arms_amended 2 "700.HK" (by decide)⟩

/-- Claim C4 (confirmed): for every record sequence longer than the
capacity, folding the appends from the empty ledger leaves exactly
`capacity` records — precisely the most recent `capacity` insertions in
their original order (oldest-first FIFO eviction) — and a single
`storeAppend` never leaves a ledger above capacity. -/
theorem c4_capacity_fifo {α : Type} :
    (∀ rs : List α, capacity < rs.length →
      getStoredDataCount (rs.foldl storeAppend []) = capacity ∧
      rs.foldl storeAppend [] = rs.drop (rs.length - capacity)) ∧
    (∀ (ledger : List α) (r : α), (storeAppend ledger r).length ≤ capacity) := by
  constructor
  · intro rs h
    refine ⟨?_, storeAppend_foldl rs⟩
    unfold getStoredDataCount
    rw [storeAppend_foldl, List.length_drop]
    omega
  · intro l r
    unfold storeAppend
    simp only [gt_iff_lt]
    split_ifs with hif
    · rw [List.length_drop]
      omega
    · omega

/-- Claim C4 witness: 10001 appends retain the last 10000 records. -/
theorem c4_capacity_fifo_witness :
    capacity < (List.range 10001).length ∧
    (getStoredDataCount ((List.range 10001).foldl storeAppend []) = capacity ∧
      (List.range 10001).foldl storeAppend []
        = (List.range 10001).drop ((List.range 10001).length - capacity)) :=
  ⟨by norm_num [capacity], c4_capacity_fifo.1 (List.range 10001) (by norm_num [capacity])⟩

/-- Claim C5, counterexample.  The claim says the crypto branch returns
`sessionKind = AlwaysOpen`; the code's session-type union has no such
kind and the branch returns `sessionType: morning` instead. -/
theorem c5_crypto_counterexample :
    getMarketHours "crypto" 0 ≠
      { isOpen := true
        nextOpen := none
        nextClose := none
        sessionType := .alwaysOpen } := by decide

/-- Claim C5, amended.  For a crypto market and every instant,
`getMarketHours` returns open with no next-open and no next-close
instants, but with session type `morning` (used by the code as the
stand-in for an always-open market), not a dedicated AlwaysOpen kind. -/
theorem c5_crypto_amended (t : Nat) :
    getMarketHours "crypto" t =
      { isOpen := true
        nextOpen := none
        nextClose := none
        sessionType := .morning } := rfl

/-- Claim C6 (confirmed): for an equity market on a weekday, an instant at
exactly 12:00:00 exchange-local time is closed (close bound exclusive)
with `nextOpen` at 13:00 of the same calendar day, while an instant whose
`timeInMinutes` sits exactly on the morning-open boundary 09:30 is inside
the morning session (open bound inclusive). -/
theorem c6_boundary_policy :
    (∀ t : Nat, 1 ≤ dayOfWeek (t + hkOffset) → dayOfWeek (t + hkOffset) ≤ 5 →
      (t + hkOffset) % msPerDay = 12 * msPerHour →
      getMarketHours "stock" t =
        { isOpen := false
          nextOpen := some (setHM (t + hkOffset) 13 0 - hkOffset)
          nextClose := none
          sessionType := .closed } ∧
      dayIndex (setHM (t + hkOffset) 13 0) = dayIndex (t + hkOffset) ∧
      timeInMinutesOf (setHM (t + hkOffset) 13 0) = 13 * 60) ∧
    (∀ t : Nat, 1 ≤ dayOfWeek (t + hkOffset) → dayOfWeek (t + hkOffset) ≤ 5 →
      timeInMinutesOf (t + hkOffset) = 9 * 60 + 30 →
      getMarketHours "stock" t =
        { isOpen := true
          nextOpen := none
          nextClose := some (setHM (t + hkOffset) 12 0 - hkOffset)
          sessionType := .morning }) := by
  constructor
  · intro t h1 h2 h3
    have htim : timeInMinutesOf (t + hkOffset) = 720 := by
      simp only [timeInMinutesOf, hoursOf, minutesOf, msPerDay, msPerHour, msPerMinute] at *
      omega
    have hd : ¬(dayOfWeek (t + hkOffset) = 0 ∨ dayOfWeek (t + hkOffset) = 6) := by omega
    refine ⟨?_, ?_, ?_⟩
    · rw [getMarketHours_stock_eq]
      simp only [getMarketHoursStock]
      rw [if_neg hd, htim]
      norm_num
    · simp only [setHM, dayIndex, msPerDay, msPerHour, msPerMinute]
      omega
    · simp only [timeInMinutesOf, hoursOf, minutesOf, setHM, dayIndex,
        msPerDay, msPerHour, msPerMinute]
      omega
  · intro t h1 h2 htim
    have hd : ¬(dayOfWeek (t + hkOffset) = 0 ∨ dayOfWeek (t + hkOffset) = 6) := by omega
    rw [getMarketHours_stock_eq]
    simp only [getMarketHoursStock]
    rw [if_neg hd, htim]
    norm_num

/-- Claim C6 witness: a concrete Friday 12:00:00 HKT instant and a
concrete Friday 09:30 HKT instant. -/
theorem c6_boundary_policy_witness :
    (1 ≤ dayOfWeek (100800000 + hkOffset) ∧ dayOfWeek (100800000 + hkOffset) ≤ 5 ∧
      (100800000 + hkOffset) % msPerDay = 12 * msPerHour ∧
      getMarketHours "stock" 100800000 =
        { isOpen := false
          nextOpen := some (setHM (100800000 + hkOffset) 13 0 - hkOffset)
          nextClose := none
          sessionType := .closed }) ∧
    (timeInMinutesOf (91800000 + hkOffset) = 9 * 60 + 30 ∧
      getMarketHours "stock" 91800000 =
        { isOpen := true
          nextOpen := none
          nextClose := some (setHM (91800000 + hkOffset) 12 0 - hkOffset)
          sessionType := .morning }) :=
  ⟨⟨by decide, by decide, by decide,
    (c6_boundary_policy.1 100800000 (by decide) (by decide) (by decide)).1⟩,
   ⟨by decide, c6_boundary_policy.2 91800000 (by decide) (by decide) (by decide)⟩⟩

/-- Claim C7 (confirmed): with auto mode enabled, an auto tick at a closed
session on a collecting scheduler performs exactly `stopCollection` and
leaves `isCollecting` false (Idle) — from any Running state, including one
reached by a manual start — and an auto tick at an open session on an idle
scheduler with a symbol selected performs exactly `startCollection`. -/
theorem c7_auto_tick (sym : String) (s : CollectorState) :
    (s.isCollecting = true →
      autoTick true false sym s = stopCollection s ∧
      (autoTick true false sym s).isCollecting = false) ∧
    (s.isCollecting = false → sym ≠ "" →
      autoTick true true sym s = startCollection sym s ∧
      (autoTick true true sym s).isCollecting = true) := by
  constructor
  · intro hrun
    have he : autoTick true false sym s = stopCollection s := by
      unfold autoTick
      simp [hrun]
    exact ⟨he, by rw [he]; rfl⟩
  · intro hidle hsym
    have he : autoTick true true sym s = startCollection sym s := by
      unfold autoTick
      simp [hidle, hsym]
    refine ⟨he, ?_⟩
    rw [he]
    unfold startCollection
    rw [if_neg hsym]

/-- Claim C7 witness: a manual start followed by a closed-session auto
tick ends Idle; an open-session auto tick from Idle starts collecting. -/
theorem c7_auto_tick_witness :
    (startCollection "700.HK" initialCollector).isCollecting = true ∧
    initialCollector.isCollecting = false ∧
    (autoTick true false "700.HK" (startCollection "700.HK" initialCollector)).isCollecting
      = false ∧
    (autoTick true true "700.HK" initialCollector).isCollecting = true :=
  ⟨by decide, by decide,
   ((c7_auto_tick "700.HK" (startCollection "700.HK" initialCollector)).1 (by decide)).2,
   ((c7_auto_tick "700.HK" initialCollector).2 (by decide) (by decide)).2⟩

/-- Claim C8 (confirmed): when the blob built from the serialized record
set reports size zero, `exportStoredData` throws before any DOM write,
the catch block does not match the memory/size fallback condition, and
the operation returns failure with no artifact written — never an empty
export. -/
theorem c8_empty_blob_failure {α : Type} (storedData : List α) (dataSize : Nat)
    (hne : storedData.length ≠ 0) :
    exportStoredData storedData dataSize 0 = ExportOutcome.failure ∧
    artifactsWritten (exportStoredData storedData dataSize 0) = 0 := by
  have hmem : isMemoryOrSizeError blobEmptyMsg = false := by decide
  have he : exportStoredData storedData dataSize 0 = ExportOutcome.failure := by
    unfold exportStoredData
    rw [if_neg hne]
    simp [hmem]
  exact ⟨he, by rw [he]; rfl⟩

/-- Claim C8 witness: a one-record store whose blob comes back empty. -/
theorem c8_empty_blob_failure_witness :
    ([(0 : Nat)] : List Nat).length ≠ 0 ∧
    (exportStoredData [(0 : Nat)] 150 0 = ExportOutcome.failure ∧
      artifactsWritten (exportStoredData [(0 : Nat)] 150 0) = 0) :=
  ⟨by decide, c8_empty_blob_failure [(0 : Nat)] 150 (by decide)⟩

/-- Claim C9, counterexample.  The claim says a tick firing while an
attempt is in flight is dropped and does not increment `totalRuns`.  In
the code `collectData` has no busy flag: starting from an idle run state,
two consecutive ticks (the second firing before the first attempt
resolves) put two attempts in flight, and once both resolve the
statistics count two runs, not one. -/
theorem c9_overlap_counterexample :
    ([Ev.tick, Ev.tick].foldl (runStep "700.HK" 0) ⟨initialStats, 0⟩).inFlight = 2 ∧
    ([Ev.tick, Ev.tick,
        Ev.complete (.stored "f"), Ev.complete (.stored "f")].foldl
      (runStep "700.HK" 0) ⟨initialStats, 0⟩).stats.totalCollections = 2 := by decide

/-- Claim C9, amended.  Collection attempts are not serialized: every
cadence tick with a nonempty symbol starts a collection attempt even
while a previous attempt is still in flight (`inFlight` strictly grows),
and every completed attempt — overlapping or not — increments
`totalCollections`. -/
theorem c9_no_drop_amended (sym : String) (now : Nat) (s : SchedulerRun)
    (hsym : sym ≠ "") :
    (runStep sym now s Ev.tick).inFlight = s.inFlight + 1 ∧
    (∀ o : FetchOutcome, 0 < s.inFlight →
      (runStep sym now s (Ev.complete o)).stats.totalCollections
        = s.stats.totalCollections + 1) := by
  constructor
  · simp only [runStep]
    rw [if_neg hsym]
  · intro o hf
    simp only [runStep]
    rw [if_neg (by omega : ¬ s.inFlight = 0)]
    cases o <;> rfl

/-- Claim C9 witness: the amended statement on a run state with one
attempt already in flight. -/
theorem c9_no_drop_amended_witness :
    ("700.HK" : String) ≠ "" ∧ 0 < (1 : Nat) ∧
    (runStep "700.HK" 0 ⟨initialStats, 1⟩ Ev.tick).inFlight = 1 + 1 ∧
    (runStep "700.HK" 0 ⟨initialStats, 1⟩
        (Ev.complete (.stored "f"))).stats.totalCollections
      = initialStats.totalCollections + 1 :=
  ⟨by decide, by decide,
   (c9_no_drop_amended "700.HK" 0 ⟨initialStats, 1⟩ (by decide)).1,
   (c9_no_drop_amended "700.HK" 0 ⟨initialStats, 1⟩ (by decide)).2 (.stored "f") (by decide)⟩

/-- Claim C10 (confirmed): every completed collection attempt increments
`totalCollections` together with exactly one of `successfulCollections`
or `failedCollections`, so the invariant total = successful + failed is
preserved by every completed attempt; it also holds after a statistics
reset and in the initial state. -/
theorem c10_stats_invariant :
    (∀ (now : Nat) (o : FetchOutcome) (s : CollectionStats),
      statsConsistent s →
        statsConsistent (applyOutcome now o s) ∧
        (applyOutcome now o s).totalCollections = s.totalCollections + 1 ∧
        (applyOutcome now o s).successfulCollections + (applyOutcome now o s).failedCollections
          = s.successfulCollections + s.failedCollections + 1) ∧
    (∀ s : CollectionStats, statsConsistent (resetStats s)) ∧
    statsConsistent initialStats := by
  refine ⟨?_, ?_, rfl⟩
  · intro now o s hs
    cases o <;> simp [applyOutcome, statsConsistent] at * <;> omega
  · intro s
    rfl

/-- Claim C10 witness: a successful attempt on consistent statistics. -/
theorem c10_stats_invariant_witness :
    statsConsistent ⟨3, 2, 1, none, []⟩ ∧
    (statsConsistent (applyOutcome 0 (.stored "f") ⟨3, 2, 1, none, []⟩) ∧
      (applyOutcome 0 (.stored "f") ⟨3, 2, 1, none, []⟩).totalCollections = 3 + 1 ∧
      (applyOutcome 0 (.stored "f") ⟨3, 2, 1, none, []⟩).successfulCollections
          + (applyOutcome 0 (.stored "f") ⟨3, 2, 1, none, []⟩).failedCollections
        = 2 + 1 + 1) :=
  ⟨rfl, c10_stats_invariant.1 0 (.stored "f") ⟨3, 2, 1, none, []⟩ rfl⟩

end MarketTick
